import Mathlib

/-!
Verification of the pycozmo session-layer client (`pycozmo/client.py`).

The Python source is shallowly embedded: each handler of `Client` becomes a
pure Lean function from an explicit client state (plus the decoded packet) to
a new state together with the list of observable actions it performs, in
order: commands sent to the Connection and events dispatched through the
event dispatcher.  External collaborators (the Connection, the protocol
codec, the image pixel codec, numpy buffers, json decoding) are modelled at
their interface boundary only, exactly as the code uses them.

Scalar wire values on which the code performs no arithmetic (angles, speeds,
voltages, accelerometer axes) are carried as `Int`; byte strings as
`List Nat`; Python `None` as `Option.none`.
-/

/-! ## Image reassembly engine (`Client._on_image_chunk` and friends) -/

/-- A decoded `protocol_encoder.ImageChunk` packet, with the fields
`_on_image_chunk` reads. -/
structure ImageChunk where
  frame_timestamp : Nat
  image_id : Nat
  chunk_id : Nat
  image_encoding : Nat
  image_resolution : Nat
  image_chunk_count : Nat
  data : List Nat
deriving DecidableEq, Repr

/-- The numpy buffer `np.empty(max_size, dtype=np.uint8)`: a capacity fixed at
allocation, and the bytes written so far.  The code only ever writes at
offset `_partial_size` (which always equals the number of bytes already
written) and only ever reads back `[0:_partial_size]`, so the contents are
faithfully the concatenation of the accepted chunks' payloads. -/
structure PartialBuffer where
  capacity : Nat
  written : List Nat
deriving DecidableEq, Repr

/-- The per-frame reassembly state: the fields set by
`Client._reset_partial_state` (`_partial_image_timestamp`, `_partial_data`,
`_partial_image_id`, `_partial_invalid`, `_partial_size`,
`_partial_image_encoding`, `_partial_image_resolution`, `_last_chunk_id`). -/
structure PartialImageState where
  partial_image_timestamp : Option Nat
  partial_data : Option PartialBuffer
  partial_image_id : Option Nat
  partial_invalid : Bool
  partial_size : Nat
  partial_image_encoding : Option Nat
  partial_image_resolution : Option Nat
  last_chunk_id : Int
deriving DecidableEq, Repr

/-- `Client._reset_partial_state`. -/
def reset_partial_state : PartialImageState :=
  { partial_image_timestamp := none
    partial_data := none
    partial_image_id := none
    partial_invalid := false
    partial_size := 0
    partial_image_encoding := none
    partial_image_resolution := none
    last_chunk_id := -1 }

/-- The payload of an `EvtNewRawCameraImage` dispatch, before the external
image codec: the frame's metadata and the raw reassembled bytes
`self._partial_data[0:self._partial_size]`.  The decode and the PIL resize in
`_process_completed_image` belong to the external Image Codec and are not
re-modelled. -/
structure CompletedImage where
  timestamp : Option Nat
  image_id : Option Nat
  image_encoding : Option Nat
  image_resolution : Option Nat
  data : List Nat
deriving DecidableEq, Repr

/-- Python exceptions that can escape a handler, plus
`MalformedFirmwareSignature`, which is modelled from the spec (section 7
names it; the `exception` module is outside the given source and
`client.py` itself never raises it). -/
inductive PyErr where
  | jsonDecodeError
  | keyError (key : String)
  | typeError
  | valueError
  | indexError
  | MalformedFirmwareSignature
deriving DecidableEq, Repr

/-- The slice assignment
`self._partial_data[offset:offset+len(pkt.data)] = pkt.data` at
`offset = _partial_size`.  A Python slice clips to the array's length
(the allocated capacity), and numpy raises `ValueError` when the clipped
slice is shorter than the assigned payload — that is, exactly when
`offset + len > capacity` with a non-empty payload.  On success the write
is at `offset = ` number of bytes already written (the writes are
sequential), so the contents are the concatenation of the accepted chunks'
payloads.  A `None` buffer would raise `TypeError` (unreachable from the
handler's own flow). -/
def slice_write : Option PartialBuffer → Nat → List Nat → Except PyErr PartialBuffer
  | none, _, _ => Except.error PyErr.typeError
  | some b, offset, d =>
    if offset + d.length ≤ b.capacity ∨ d.length = 0 then
      Except.ok { capacity := b.capacity, written := b.written ++ d }
    else
      Except.error PyErr.valueError

/-- The written prefix of the buffer (empty when no buffer is allocated). -/
def buf_written : Option PartialBuffer → List Nat
  | none => []
  | some b => b.written

/-- The `EvtNewRawCameraImage` payload built by `_process_completed_image`
from the state reached after the final chunk was accepted. -/
def completed_of (st : PartialImageState) : CompletedImage :=
  { timestamp := st.partial_image_timestamp
    image_id := st.partial_image_id
    image_encoding := st.partial_image_encoding
    image_resolution := st.partial_image_resolution
    data := buf_written st.partial_data }

/-- The reassembly state right after the first-chunk branch of
`_on_image_chunk`: `_reset_partial_state()` followed by the five assignments
and the `np.empty(width * height * 3)` allocation, the width and height read
from `camera.RESOLUTIONS` (the external resolution table `RES`). -/
def fresh_open (RES : Nat → Nat × Nat) (pkt : ImageChunk) : PartialImageState :=
  { reset_partial_state with
    partial_image_timestamp := some pkt.frame_timestamp
    partial_image_id := some pkt.image_id
    partial_image_encoding := some pkt.image_encoding
    partial_image_resolution := some pkt.image_resolution
    partial_data := some { capacity := (RES pkt.image_resolution).1 * (RES pkt.image_resolution).2 * 3, written := [] } }

/-- The outcome of delivering image-chunk packets: the reassembly state at
return (or at the point the exception escaped), the completed frames
dispatched, and the exception that escaped the handler, if any. -/
structure StepResult where
  state : PartialImageState
  images : List CompletedImage
  err : Option PyErr
deriving DecidableEq, Repr

/-- The reassembly state after a successful slice write and the two
assignments that follow it (`_partial_size += len(pkt.data)`,
`_last_chunk_id = pkt.chunk_id`); `b` is the buffer the write produced. -/
def write_accept (st : PartialImageState) (pkt : ImageChunk) (b : PartialBuffer) :
    PartialImageState :=
  { st with
    partial_data := some b
    partial_size := st.partial_size + pkt.data.length
    last_chunk_id := (pkt.chunk_id : Int) }

/-- The tail of `_on_image_chunk` common to a newly opened and an already
open frame: the gap/mismatch check, the buffer write (whose `ValueError`
escapes before `_partial_size` and `_last_chunk_id` are updated), and the
final-chunk completion test (`pkt.chunk_id == pkt.image_chunk_count - 1`,
written over `Int`-free naturals as `chunk_id + 1 = image_chunk_count`).
On the final chunk, `_process_completed_image` reads `data[0]` of the
slice `_partial_data[0:_partial_size]` — `IndexError` when that slice is
empty (zero accumulated size, or a zero-sized allocation), escaping before
the dispatch and before `_reset_partial_state`. -/
def accept_chunk (st : PartialImageState) (pkt : ImageChunk) : StepResult :=
  if (pkt.chunk_id : Int) ≠ st.last_chunk_id + 1 ∨ some pkt.image_id ≠ st.partial_image_id then
    ⟨{ reset_partial_state with partial_invalid := true }, [], none⟩
  else
    match slice_write st.partial_data st.partial_size pkt.data with
    | Except.error e => ⟨st, [], some e⟩
    | Except.ok b =>
      let st2 : PartialImageState := write_accept st pkt b
      if pkt.chunk_id + 1 = pkt.image_chunk_count then
        if st2.partial_size = 0 ∨ b.capacity = 0 then
          ⟨st2, [], some PyErr.indexError⟩
        else
          ⟨reset_partial_state, [completed_of st2], none⟩
      else
        ⟨st2, [], none⟩

/-- `Client._on_image_chunk`, machine level: one packet in; out come the
new reassembly state, the (zero or one) completed frames, and the escaped
exception if any. -/
def image_chunk_step (RES : Nat → Nat × Nat) (st : PartialImageState)
    (pkt : ImageChunk) : StepResult :=
  let st1 :=
    if st.partial_image_id.isSome ∧ pkt.chunk_id = 0 then
      { st with partial_image_id := none }
    else st
  if st1.partial_image_id = none then
    if pkt.chunk_id ≠ 0 then
      ⟨{ st1 with partial_invalid := true }, [], none⟩
    else
      accept_chunk (fresh_open RES pkt) pkt
  else
    accept_chunk st1 pkt

/-- Deliver a whole sequence of image-chunk packets, accumulating the
completed frames in order; an escaped exception stops the run (it
propagates into the Connection's delivery loop, outside this core). -/
def image_chunk_run (RES : Nat → Nat × Nat) (st : PartialImageState) :
    List ImageChunk → StepResult
  | [] => ⟨st, [], none⟩
  | p :: ps =>
    let r1 := image_chunk_step RES st p
    match r1.err with
    | some e => ⟨r1.state, r1.images, some e⟩
    | none =>
      let r2 := image_chunk_run RES r1.state ps
      ⟨r2.state, r1.images ++ r2.images, r2.err⟩

/-- The frame `i` is open with last accepted chunk index `j`. -/
def OpenFrame (st : PartialImageState) (i j : Nat) : Prop :=
  st.partial_image_id = some i ∧ st.last_chunk_id = (j : Int)

/-! ## The claim-side characterization of frame completion -/

/-- `run` is a full, index-contiguous run of chunks `0..N-1` (`N` its length)
sharing the single image id `i`, whose final chunk declares the chunk count
`N`. -/
def IsRun (i : Nat) (run : List ImageChunk) : Prop :=
  (∀ p ∈ run, p.image_id = i) ∧
  run.map (fun p => p.chunk_id) = List.range run.length ∧
  ∃ q, run.getLast? = some q ∧ q.image_chunk_count = run.length

/-- `seg` continues an open frame of id `i` whose last accepted chunk index
is `j`: index-contiguous chunks `j+1, j+2, ...` of image id `i`, the final
one declaring a chunk count one past its own index. -/
def IsContSeg (i j : Nat) (seg : List ImageChunk) : Prop :=
  (∀ p ∈ seg, p.image_id = i) ∧
  seg.map (fun p => p.chunk_id) = List.range' (j + 1) seg.length ∧
  ∃ q, seg.getLast? = some q ∧ q.image_chunk_count = j + 1 + seg.length

/-- A prefix of the packet list continues frame `i` from last index `j` up to
a completing chunk. -/
def hasCont (i : Nat) : Nat → List ImageChunk → Prop
  | _, [] => False
  | j, p :: ps =>
    p.image_id = i ∧ p.chunk_id = j + 1 ∧
      (p.image_chunk_count = j + 2 ∨ hasCont i (j + 1) ps)

/-- Somewhere in the packet list, a chunk of index 0 starts a frame that runs
contiguously to a completing chunk. -/
def hasRun : List ImageChunk → Prop
  | [] => False
  | p :: ps =>
    (p.chunk_id = 0 ∧ (p.image_chunk_count = 1 ∨ hasCont p.image_id 0 ps)) ∨ hasRun ps

/-! ## Events, commands and the client state (`pycozmo/client.py` top level) -/

/-- The flag-change event classes of `client.py` (one per `Evt...Change`
class; `EvtRobotAnimatingIdleChange` is declared in the source but never
referenced by `STATUS_EVTS`). -/
inductive FlagEvt where
  | EvtRobotMovingChange
  | EvtRobotCarryingBlockChange
  | EvtRobotPickingOrPlacingChange
  | EvtRobotPickedUpChange
  | EvtRobotBodyAccModeChange
  | EvtRobotFallingChange
  | EvtRobotAnimatingChange
  | EvtRobotPathingChange
  | EvtRobotLiftInPositionChange
  | EvtRobotHeadInPositionChange
  | EvtRobotAnimBufferFullChange
  | EvtRobotAnimatingIdleChange
  | EvtRobotOnChargerChange
  | EvtRobotChargingChange
  | EvtCliffDetectedChange
  | EvtRobotWheelsMovingChange
  | EvtChargerOOSChange
deriving DecidableEq, Repr

/-- The named status flags of `robot.RobotStatusFlag` that `STATUS_EVTS`
keys on. -/
inductive RobotStatusFlag where
  | IS_MOVING
  | IS_CARRYING_BLOCK
  | IS_PICKING_OR_PLACING
  | IS_PICKED_UP
  | IS_BODY_ACC_MODE
  | IS_FALLING
  | IS_ANIMATING
  | IS_PATHING
  | LIFT_IN_POS
  | HEAD_IN_POS
  | IS_ANIM_BUFFER_FULL
  | IS_ANIMATING_IDLE
  | IS_ON_CHARGER
  | IS_CHARGING
  | CLIFF_DETECTED
  | ARE_WHEELS_MOVING
  | IS_CHARGER_OOS
deriving DecidableEq, Repr

/-- Modelled from the spec: the numeric values of `robot.RobotStatusFlag`
(the `robot` module is outside the given source).  Spec section 3 fixes "a
mapping from named boolean flags ... to bit positions in the status field";
the particular positions are immaterial to the claims, so the flags are
assigned distinct bits in declaration order. -/
def flag_bit : RobotStatusFlag → Nat
  | .IS_MOVING => 0
  | .IS_CARRYING_BLOCK => 1
  | .IS_PICKING_OR_PLACING => 2
  | .IS_PICKED_UP => 3
  | .IS_BODY_ACC_MODE => 4
  | .IS_FALLING => 5
  | .IS_ANIMATING => 6
  | .IS_PATHING => 7
  | .LIFT_IN_POS => 8
  | .HEAD_IN_POS => 9
  | .IS_ANIM_BUFFER_FULL => 10
  | .IS_ANIMATING_IDLE => 11
  | .IS_ON_CHARGER => 12
  | .IS_CHARGING => 13
  | .CLIFF_DETECTED => 14
  | .ARE_WHEELS_MOVING => 15
  | .IS_CHARGER_OOS => 16

/-- The single-bit mask of a status flag (its `robot.RobotStatusFlag`
value). -/
def flag_mask (f : RobotStatusFlag) : Nat := 2 ^ flag_bit f

/-- The `STATUS_EVTS` table of `client.py`, in its declaration order.  Note
line 116 of the source: `IS_ANIMATING_IDLE` maps to
`EvtRobotAnimatingChange` (not to the declared-but-unused
`EvtRobotAnimatingIdleChange`). -/
def STATUS_EVTS : List (RobotStatusFlag × FlagEvt) :=
  [(.IS_MOVING, .EvtRobotMovingChange),
   (.IS_CARRYING_BLOCK, .EvtRobotCarryingBlockChange),
   (.IS_PICKING_OR_PLACING, .EvtRobotPickingOrPlacingChange),
   (.IS_PICKED_UP, .EvtRobotPickedUpChange),
   (.IS_BODY_ACC_MODE, .EvtRobotBodyAccModeChange),
   (.IS_FALLING, .EvtRobotFallingChange),
   (.IS_ANIMATING, .EvtRobotAnimatingChange),
   (.IS_PATHING, .EvtRobotPathingChange),
   (.LIFT_IN_POS, .EvtRobotLiftInPositionChange),
   (.HEAD_IN_POS, .EvtRobotHeadInPositionChange),
   (.IS_ANIM_BUFFER_FULL, .EvtRobotAnimBufferFullChange),
   (.IS_ANIMATING_IDLE, .EvtRobotAnimatingChange),
   (.IS_ON_CHARGER, .EvtRobotOnChargerChange),
   (.IS_CHARGING, .EvtRobotChargingChange),
   (.CLIFF_DETECTED, .EvtCliffDetectedChange),
   (.ARE_WHEELS_MOVING, .EvtRobotWheelsMovingChange),
   (.IS_CHARGER_OOS, .EvtChargerOOSChange)]

/-- Events the client dispatches. -/
inductive Evt where
  | EvtRobotFound
  | EvtRobotReady
  | EvtRobotStateUpdated
  | EvtNewRawCameraImage (img : CompletedImage)
  | flagChange (k : FlagEvt) (state : Bool)
deriving DecidableEq, Repr

/-- Commands the client sends to the Connection during the handshake. -/
inductive Cmd where
  | Enable
  | EnableBodyACC
  | EnableAnimationState
  | NextFrame
  | DisplayImage (data : List Nat)
deriving DecidableEq, Repr

/-- One observable action of a handler, in program order: a
`self.conn.send(pkt)` or a `self.dispatch(Evt..., ...)`. -/
inductive ClientAction where
  | send (c : Cmd)
  | dispatch (e : Evt)
deriving DecidableEq, Repr

/-- The outcome of `json.loads` on the firmware-signature payload: the
external json codec either fails or yields the decoded top-level object,
carried as an association list (the only key the client reads is
`"version"`, an integer). -/
inductive JsonErr where
  | decodeError
deriving DecidableEq, Repr

/-- An entry of `available_objects` / the `object.Object` record. -/
structure ObjectRec where
  factory_id : Nat
  object_type : Nat
deriving DecidableEq, Repr

/-- A decoded `protocol_encoder.RobotState` packet (scalar wire values as
`Int` stand-ins, see the header note; `status` is the status bit-field). -/
structure RobotState where
  pose_angle_rad : Int
  pose_pitch_rad : Int
  head_angle_rad : Int
  lwheel_speed_mmps : Int
  rwheel_speed_mmps : Int
  lift_height_mm : Int
  battery_voltage : Int
  accel_x : Int
  accel_y : Int
  accel_z : Int
  gyro_x : Int
  gyro_y : Int
  gyro_z : Int
  status : Nat
deriving DecidableEq, Repr

/-- The mutable fields of `Client` the modelled handlers touch. -/
structure ClientState where
  serial_number_head : Option Nat
  robot_fw_sig : Option (List (String × Int))
  serial_number : Option Nat
  body_hw_version : Option Nat
  body_color : Option Nat
  pose_angle : Int
  pose_pitch : Int
  head_angle : Int
  left_wheel_speed : Int
  right_wheel_speed : Int
  lift_position : Int
  battery_voltage : Int
  accel : Int × Int × Int
  gyro : Int × Int × Int
  robot_status : Nat
  last_image_timestamp : Option Nat
  available_objects : List (Nat × ObjectRec)
  partial_state : PartialImageState
deriving DecidableEq, Repr

/-- `Client.__init__`: identity fields `None`, `robot_status = 0`, empty
object map, `_reset_partial_state()`.  The initial pose/head/lift values
come from external `util`/`robot` constants and are carried as 0 stand-ins
(no claim depends on them). -/
def init_client_state : ClientState :=
  { serial_number_head := none
    robot_fw_sig := none
    serial_number := none
    body_hw_version := none
    body_color := none
    pose_angle := 0
    pose_pitch := 0
    head_angle := 0
    left_wheel_speed := 0
    right_wheel_speed := 0
    lift_position := 0
    battery_voltage := 0
    accel := (0, 0, 0)
    gyro := (0, 0, 0)
    robot_status := 0
    last_image_timestamp := none
    available_objects := []
    partial_state := reset_partial_state }

/-- Modelled from the spec: `protocol_declaration.FIRMWARE_VERSION` (the
`protocol_declaration` module is outside the given source; spec section 6:
"firmware-version compatibility is checked against a single compiled-in
constant").  The particular value is immaterial to the claims. -/
def FIRMWARE_VERSION : Int := 2381

/-- The result of running one handler: the new client state, the actions it
performed before returning or raising, and the exception that escaped it, if
any (it would propagate into the Connection's delivery thread). -/
structure HandlerResult where
  state : ClientState
  actions : List ClientAction
  err : Option PyErr
deriving DecidableEq, Repr

/-- `Client._enable_robot`: send `Enable` twice. -/
def enable_robot_actions : List ClientAction :=
  [ClientAction.send Cmd.Enable, ClientAction.send Cmd.Enable]

/-- `Client._initialize_robot`: `EnableBodyACC`, `EnableAnimationState`,
seven `NextFrame` + `DisplayImage(b"\x3f\x3f")` pairs, the 0.5 s settle
sleep (pure real time, no observable action), then dispatch
`EvtRobotReady`. -/
def init_robot_actions : List ClientAction :=
  [ClientAction.send Cmd.EnableBodyACC, ClientAction.send Cmd.EnableAnimationState] ++
    (List.replicate 7 [ClientAction.send Cmd.NextFrame,
      ClientAction.send (Cmd.DisplayImage [63, 63])]).flatten ++
    [ClientAction.dispatch Evt.EvtRobotReady]

/-- `Client._on_firmware_signature`: `json.loads` the signature (a decode
failure escapes as the json error, before `robot_fw_sig` is assigned), store
it, read `["version"]` for the log line (a missing key escapes as
`KeyError`, after the assignment), then `_enable_robot()`. -/
def on_firmware_signature (st : ClientState)
    (signature : Except JsonErr (List (String × Int))) : HandlerResult :=
  match signature with
  | .error _ => { state := st, actions := [], err := some PyErr.jsonDecodeError }
  | .ok sig =>
    let st2 := { st with robot_fw_sig := some sig }
    match sig.lookup "version" with
    | none => { state := st2, actions := [], err := some (PyErr.keyError "version") }
    | some _ => { state := st2, actions := enable_robot_actions, err := none }

/-- `Client._on_body_info`: store serial number, hardware version and body
color; compare `robot_fw_sig["version"]` against `FIRMWARE_VERSION` (a
`None` signature escapes as `TypeError`); on a match run
`_initialize_robot()`, otherwise only log the error; finally dispatch
`EvtRobotFound`. -/
def on_body_info (st : ClientState)
    (serial_number body_hw_version body_color : Nat) : HandlerResult :=
  let st2 := { st with
    serial_number := some serial_number
    body_hw_version := some body_hw_version
    body_color := some body_color }
  match st2.robot_fw_sig with
  | none => { state := st2, actions := [], err := some PyErr.typeError }
  | some sig =>
    match sig.lookup "version" with
    | none => { state := st2, actions := [], err := some (PyErr.keyError "version") }
    | some v =>
      if v = FIRMWARE_VERSION then
        { state := st2,
          actions := init_robot_actions ++ [ClientAction.dispatch Evt.EvtRobotFound],
          err := none }
      else
        { state := st2, actions := [ClientAction.dispatch Evt.EvtRobotFound], err := none }

/-- `Client._on_robot_state`: overwrite the snapshot's motion/power fields,
save the old status bit-field, store the new one, dispatch
`EvtRobotStateUpdated`, then one flag event per `STATUS_EVTS` entry whose
masked bit changed, in table order, carrying `(pkt.status & flag) != 0`. -/
def on_robot_state (st : ClientState) (pkt : RobotState) : ClientState × List ClientAction :=
  let st2 := { st with
    pose_angle := pkt.pose_angle_rad
    pose_pitch := pkt.pose_pitch_rad
    head_angle := pkt.head_angle_rad
    left_wheel_speed := pkt.lwheel_speed_mmps
    right_wheel_speed := pkt.rwheel_speed_mmps
    lift_position := pkt.lift_height_mm
    battery_voltage := pkt.battery_voltage
    accel := (pkt.accel_x, pkt.accel_y, pkt.accel_z)
    gyro := (pkt.gyro_x, pkt.gyro_y, pkt.gyro_z)
    robot_status := pkt.status }
  (st2,
    ClientAction.dispatch Evt.EvtRobotStateUpdated ::
      STATUS_EVTS.filterMap (fun fe =>
        if st.robot_status &&& flag_mask fe.1 ≠ pkt.status &&& flag_mask fe.1 then
          some (ClientAction.dispatch
            (Evt.flagChange fe.2 (pkt.status &&& flag_mask fe.1 != 0)))
        else none))

/-- `Client._on_object_available`: insert the object record only if the
factory id is unseen. -/
def on_object_available (st : ClientState) (factory_id object_type : Nat) : ClientState :=
  let obj : ObjectRec := { factory_id := factory_id, object_type := object_type }
  if st.available_objects.lookup factory_id = none then
    { st with available_objects := st.available_objects ++ [(factory_id, obj)] }
  else st

/-- `Client._on_image_chunk` at client level: run the reassembly machine on
`self._partial_*`; a completed frame sets `last_image_timestamp` and
dispatches `EvtNewRawCameraImage`; an escaping `ValueError`/`IndexError`
leaves the machine state as it was at the raise, with no dispatch and no
timestamp update. -/
def on_image_chunk (RES : Nat → Nat × Nat) (st : ClientState) (pkt : ImageChunk) :
    HandlerResult :=
  let r := image_chunk_step RES st.partial_state pkt
  match r.err with
  | some e => { state := { st with partial_state := r.state }, actions := [], err := some e }
  | none =>
    match r.images with
    | [] => { state := { st with partial_state := r.state }, actions := [], err := none }
    | c :: _ =>
      { state := { st with partial_state := r.state, last_image_timestamp := c.timestamp }
        actions := r.images.map (fun c2 => ClientAction.dispatch (Evt.EvtNewRawCameraImage c2))
        err := none }

/-- The decoded packets routed by the handlers modelled here (the
`AnimationState` and `ObjectConnectionState` handlers touch no state any
claim mentions). -/
inductive Pkt where
  | HardwareInfo (serial_number_head : Nat)
  | FirmwareSignature (signature : Except JsonErr (List (String × Int)))
  | BodyInfo (serial_number body_hw_version body_color : Nat)
  | ImageChunkPkt (c : ImageChunk)
  | RobotStatePkt (r : RobotState)
  | ObjectAvailable (factory_id object_type : Nat)

/-- Route one decoded packet to its handler, as `Client.start` registers
them. -/
def process_packet (RES : Nat → Nat × Nat) (st : ClientState) : Pkt → HandlerResult
  | .HardwareInfo sn =>
    { state := { st with serial_number_head := some sn }, actions := [], err := none }
  | .FirmwareSignature sig => on_firmware_signature st sig
  | .BodyInfo a b c => on_body_info st a b c
  | .ImageChunkPkt c => on_image_chunk RES st c
  | .RobotStatePkt r =>
    let q := on_robot_state st r
    { state := q.1, actions := q.2, err := none }
  | .ObjectAvailable f t =>
    { state := on_object_available st f t, actions := [], err := none }

/-- Deliver a packet sequence on the Connection's thread; an escaping
exception stops the run (it propagates into the Connection, outside this
core). -/
def run_client (RES : Nat → Nat × Nat) (st : ClientState) : List Pkt → HandlerResult
  | [] => { state := st, actions := [], err := none }
  | p :: ps =>
    let r := process_packet RES st p
    match r.err with
    | some e => { state := r.state, actions := r.actions, err := some e }
    | none =>
      let r2 := run_client RES r.state ps
      { state := r2.state, actions := r.actions ++ r2.actions, err := r2.err }

/-! ## `Client.wait_for_robot` -/

/-- The event a blocking waiter subscribes to (one-shot flag alongside). -/
inductive WaitTarget where
  | found
  | ready
deriving DecidableEq, Repr

/-- What `wait_for_robot` can raise. -/
inductive WaitErr where
  | ConnectionTimeout
  | UnsupportedFirmwareVersion
  | pyError (e : PyErr)
deriving DecidableEq, Repr

/-- The observations `wait_for_robot` makes of the shared mutable client
state and of its two possible blocking waits: `self.robot_fw_sig` at entry
(line 245), whether the one-shot `EvtRobotFound` waiter fires within the
timeout, `self.robot_fw_sig` when the version check runs (line 251, after
the potential wait, on the delivery thread's current value),
`self.serial_number` at the third check (line 254), and whether the one-shot
`EvtRobotReady` waiter fires within its timeout. -/
structure WaitWorld where
  fw_sig_at_entry : Option (List (String × Int))
  found_fires : Bool
  fw_sig_at_check : Option (List (String × Int))
  serial_at_check : Option Nat
  ready_fires : Bool

/-- Python truthiness of `self.robot_fw_sig` (`None` and the empty dict are
falsy). -/
def truthy_sig : Option (List (String × Int)) → Bool
  | none => false
  | some d => !d.isEmpty

/-- Python truthiness of `self.serial_number` (`None` and 0 are falsy). -/
def truthy_serial : Option Nat → Bool
  | none => false
  | some n => n != 0

/-- `Client.wait_for_robot`, three sequential checks: (1) signature not yet
observed: register a one-shot `EvtRobotFound` waiter, raise
`ConnectionTimeout` if it does not fire in time; (2) version differs from
`FIRMWARE_VERSION`: raise `UnsupportedFirmwareVersion` at once; (3) serial
number not yet set: register a one-shot `EvtRobotReady` waiter, raise
`ConnectionTimeout` on its timeout.  Returns the subscriptions registered
(in order, with their one-shot flag) and the raised error, if any. -/
def wait_for_robot (w : WaitWorld) : List (WaitTarget × Bool) × Option WaitErr :=
  let subs1 : List (WaitTarget × Bool) :=
    if truthy_sig w.fw_sig_at_entry then [] else [(WaitTarget.found, true)]
  if truthy_sig w.fw_sig_at_entry = false ∧ w.found_fires = false then
    (subs1, some WaitErr.ConnectionTimeout)
  else
    match w.fw_sig_at_check with
    | none => (subs1, some (WaitErr.pyError PyErr.typeError))
    | some sig =>
      match sig.lookup "version" with
      | none => (subs1, some (WaitErr.pyError (PyErr.keyError "version")))
      | some v =>
        if v ≠ FIRMWARE_VERSION then
          (subs1, some WaitErr.UnsupportedFirmwareVersion)
        else
          if truthy_serial w.serial_at_check then (subs1, none)
          else
            if w.ready_fires then (subs1 ++ [(WaitTarget.ready, true)], none)
            else (subs1 ++ [(WaitTarget.ready, true)], some WaitErr.ConnectionTimeout)

/-- A concrete stand-in for the external `camera.RESOLUTIONS` table, used by
witnesses only. -/
def RES0 : Nat → Nat × Nat := fun _ => (2, 2)

/-- A concrete reassembly state with frame 7 open at last chunk index 0,
used by witnesses only. -/
def open_state_7 : PartialImageState :=
  { reset_partial_state with
    partial_image_id := some 7
    partial_data := some { capacity := 12, written := [1] }
    partial_image_timestamp := some 11
    partial_size := 1
    last_chunk_id := 0 }

/-- A concrete mismatching firmware signature for counterexamples: version
1, while `FIRMWARE_VERSION` is 2381. -/
def sig_v1 : List (String × Int) := [("version", 1)]

/-- A concrete client state that has already parsed a supported firmware
signature. -/
def fw_state_ok : ClientState :=
  { init_client_state with robot_fw_sig := some [("version", 2381)] }

/-! ## Proofs -/

/-! ## Proofs -/

/-! ## Branch lemmas for `image_chunk_step` -/

theorem step_closed_nonzero (RES : Nat → Nat × Nat) (st : PartialImageState)
    (pkt : ImageChunk) (hid : st.partial_image_id = none) (hc : pkt.chunk_id ≠ 0) :
    image_chunk_step RES st pkt = ⟨{ st with partial_invalid := true }, [], none⟩ := by
  simp [image_chunk_step, hid, hc]

theorem step_chunk0 (RES : Nat → Nat × Nat) (st : PartialImageState)
    (pkt : ImageChunk) (hc : pkt.chunk_id = 0) :
    image_chunk_step RES st pkt = accept_chunk (fresh_open RES pkt) pkt := by
  by_cases hid : st.partial_image_id = none
  · simp [image_chunk_step, hid, hc]
  · rcases Option.ne_none_iff_exists'.1 hid with ⟨i, hi⟩
    simp [image_chunk_step, hi, hc]

theorem step_open_nonzero (RES : Nat → Nat × Nat) (st : PartialImageState)
    (pkt : ImageChunk) (i : Nat) (hid : st.partial_image_id = some i)
    (hc : pkt.chunk_id ≠ 0) :
    image_chunk_step RES st pkt = accept_chunk st pkt := by
  simp [image_chunk_step, hid, hc]

theorem accept_mismatch (st : PartialImageState) (pkt : ImageChunk)
    (h : (pkt.chunk_id : Int) ≠ st.last_chunk_id + 1 ∨ some pkt.image_id ≠ st.partial_image_id) :
    accept_chunk st pkt = ⟨{ reset_partial_state with partial_invalid := true }, [], none⟩ := by
  simp only [accept_chunk, if_pos h]

theorem accept_match (st : PartialImageState) (pkt : ImageChunk)
    (h1 : (pkt.chunk_id : Int) = st.last_chunk_id + 1)
    (h2 : some pkt.image_id = st.partial_image_id) :
    accept_chunk st pkt =
      (match slice_write st.partial_data st.partial_size pkt.data with
       | Except.error e => ⟨st, [], some e⟩
       | Except.ok b =>
         let st2 : PartialImageState := write_accept st pkt b
         if pkt.chunk_id + 1 = pkt.image_chunk_count then
           if st2.partial_size = 0 ∨ b.capacity = 0 then
             ⟨st2, [], some PyErr.indexError⟩
           else
             ⟨reset_partial_state, [completed_of st2], none⟩
         else
           ⟨st2, [], none⟩) := by
  have hguard : ¬((pkt.chunk_id : Int) ≠ st.last_chunk_id + 1 ∨
      some pkt.image_id ≠ st.partial_image_id) := by
    push_neg
    exact ⟨h1, h2⟩
  rw [accept_chunk, if_neg hguard]

theorem accept_match_err (st : PartialImageState) (pkt : ImageChunk) (e : PyErr)
    (h1 : (pkt.chunk_id : Int) = st.last_chunk_id + 1)
    (h2 : some pkt.image_id = st.partial_image_id)
    (hw : slice_write st.partial_data st.partial_size pkt.data = Except.error e) :
    accept_chunk st pkt = ⟨st, [], some e⟩ := by
  rw [accept_match st pkt h1 h2, hw]

theorem accept_match_ok (st : PartialImageState) (pkt : ImageChunk) (b : PartialBuffer)
    (h1 : (pkt.chunk_id : Int) = st.last_chunk_id + 1)
    (h2 : some pkt.image_id = st.partial_image_id)
    (hw : slice_write st.partial_data st.partial_size pkt.data = Except.ok b) :
    accept_chunk st pkt =
      (if pkt.chunk_id + 1 = pkt.image_chunk_count then
        if st.partial_size + pkt.data.length = 0 ∨ b.capacity = 0 then
          ⟨write_accept st pkt b, [], some PyErr.indexError⟩
        else
          ⟨reset_partial_state, [completed_of (write_accept st pkt b)], none⟩
      else
        ⟨write_accept st pkt b, [], none⟩) := by
  rw [accept_match st pkt h1 h2, hw]
  rfl

theorem accept_ok_incomplete (st : PartialImageState) (pkt : ImageChunk) (b : PartialBuffer)
    (h1 : (pkt.chunk_id : Int) = st.last_chunk_id + 1)
    (h2 : some pkt.image_id = st.partial_image_id)
    (hw : slice_write st.partial_data st.partial_size pkt.data = Except.ok b)
    (hcc : pkt.chunk_id + 1 ≠ pkt.image_chunk_count) :
    accept_chunk st pkt = ⟨write_accept st pkt b, [], none⟩ := by
  rw [accept_match_ok st pkt b h1 h2 hw, if_neg hcc]

theorem accept_ok_complete (st : PartialImageState) (pkt : ImageChunk) (b : PartialBuffer)
    (h1 : (pkt.chunk_id : Int) = st.last_chunk_id + 1)
    (h2 : some pkt.image_id = st.partial_image_id)
    (hw : slice_write st.partial_data st.partial_size pkt.data = Except.ok b)
    (hcc : pkt.chunk_id + 1 = pkt.image_chunk_count)
    (hne : ¬(st.partial_size + pkt.data.length = 0 ∨ b.capacity = 0)) :
    accept_chunk st pkt =
      ⟨reset_partial_state, [completed_of (write_accept st pkt b)], none⟩ := by
  rw [accept_match_ok st pkt b h1 h2 hw, if_pos hcc, if_neg hne]

theorem accept_ok_empty (st : PartialImageState) (pkt : ImageChunk) (b : PartialBuffer)
    (h1 : (pkt.chunk_id : Int) = st.last_chunk_id + 1)
    (h2 : some pkt.image_id = st.partial_image_id)
    (hw : slice_write st.partial_data st.partial_size pkt.data = Except.ok b)
    (hcc : pkt.chunk_id + 1 = pkt.image_chunk_count)
    (he : st.partial_size + pkt.data.length = 0 ∨ b.capacity = 0) :
    accept_chunk st pkt = ⟨write_accept st pkt b, [], some PyErr.indexError⟩ := by
  rw [accept_match_ok st pkt b h1 h2 hw, if_pos hcc, if_pos he]

theorem run_cons_none (RES : Nat → Nat × Nat) (st : PartialImageState) (p : ImageChunk)
    (ps : List ImageChunk) (h : (image_chunk_step RES st p).err = none) :
    image_chunk_run RES st (p :: ps) =
      ⟨(image_chunk_run RES (image_chunk_step RES st p).state ps).state,
       (image_chunk_step RES st p).images ++
         (image_chunk_run RES (image_chunk_step RES st p).state ps).images,
       (image_chunk_run RES (image_chunk_step RES st p).state ps).err⟩ := by
  rw [image_chunk_run]
  simp [h]

theorem run_cons_some (RES : Nat → Nat × Nat) (st : PartialImageState) (p : ImageChunk)
    (ps : List ImageChunk) (e : PyErr) (h : (image_chunk_step RES st p).err = some e) :
    image_chunk_run RES st (p :: ps) =
      ⟨(image_chunk_step RES st p).state, (image_chunk_step RES st p).images, some e⟩ := by
  rw [image_chunk_run]
  simp [h]

theorem accept_open_mismatch (st : PartialImageState) (p : ImageChunk) (i0 n0 : Nat)
    (hi : st.partial_image_id = some i0) (hl : st.last_chunk_id = (n0 : Int))
    (hm : ¬(p.chunk_id = n0 + 1 ∧ p.image_id = i0)) :
    accept_chunk st p = ⟨{ reset_partial_state with partial_invalid := true }, [], none⟩ := by
  apply accept_mismatch
  rw [not_and_or] at hm
  rcases hm with h | h
  · left
    rw [hl]
    intro hcast
    exact h (by exact_mod_cast hcast)
  · right
    rw [hi]
    simp [h]

theorem hasCont_nil (i j : Nat) : hasCont i j [] ↔ False := Iff.rfl

theorem hasCont_cons (i j : Nat) (p : ImageChunk) (ps : List ImageChunk) :
    hasCont i j (p :: ps) ↔
      p.image_id = i ∧ p.chunk_id = j + 1 ∧
        (p.image_chunk_count = j + 2 ∨ hasCont i (j + 1) ps) := Iff.rfl

theorem hasRun_nil : hasRun [] ↔ False := Iff.rfl

theorem hasRun_cons (p : ImageChunk) (ps : List ImageChunk) :
    hasRun (p :: ps) ↔
      (p.chunk_id = 0 ∧ (p.image_chunk_count = 1 ∨ hasCont p.image_id 0 ps)) ∨ hasRun ps :=
  Iff.rfl

theorem exists_openframe_none (st : PartialImageState)
    (hid : st.partial_image_id = none) (C : Nat → Nat → Prop) :
    (∃ i j, OpenFrame st i j ∧ C i j) ↔ False := by
  simp [OpenFrame, hid]

theorem exists_openframe_some (st : PartialImageState) (i0 n0 : Nat)
    (hi : st.partial_image_id = some i0) (hl : st.last_chunk_id = (n0 : Int))
    (C : Nat → Nat → Prop) :
    (∃ i j, OpenFrame st i j ∧ C i j) ↔ C i0 n0 := by
  constructor
  · rintro ⟨i, j, ⟨h1, h2⟩, hC⟩
    rw [hi] at h1
    rw [hl] at h2
    obtain rfl : i0 = i := Option.some.inj h1
    obtain rfl : n0 = j := by exact_mod_cast h2
    exact hC
  · intro hC
    exact ⟨i0, n0, ⟨hi, hl⟩, hC⟩

theorem completes_run_iff (RES : Nat → Nat × Nat) :
    ∀ (ps : List ImageChunk) (st : PartialImageState),
      (st.partial_image_id.isSome → 0 ≤ st.last_chunk_id) →
      (image_chunk_run RES st ps).err = none →
      ((image_chunk_run RES st ps).images ≠ [] ↔
        hasRun ps ∨ ∃ i j, OpenFrame st i j ∧ hasCont i j ps) := by
  intro ps
  induction ps with
  | nil =>
    intro st _ _
    simp [image_chunk_run, hasRun, hasCont]
  | cons p ps IH =>
    intro st hinv herr
    by_cases hc0 : p.chunk_id = 0
    · -- chunk index 0: a fresh frame opens, whatever was in progress
      have hstep0 := step_chunk0 RES st p hc0
      have h1f : (p.chunk_id : Int) = (fresh_open RES p).last_chunk_id + 1 := by
        simp [fresh_open, reset_partial_state, hc0]
      have h2f : some p.image_id = (fresh_open RES p).partial_image_id := rfl
      have hnocont : (∃ i j, OpenFrame st i j ∧ hasCont i j (p :: ps)) ↔ False := by
        constructor
        · rintro ⟨i, j, _, ⟨_, hch, _⟩⟩
          omega
        · exact False.elim
      rcases hw : slice_write (fresh_open RES p).partial_data
          (fresh_open RES p).partial_size p.data with e | b
      · -- the write raised: excluded by the no-exception hypothesis
        have hstep : image_chunk_step RES st p = ⟨fresh_open RES p, [], some e⟩ :=
          hstep0.trans (accept_match_err _ p e h1f h2f hw)
        rw [run_cons_some RES st p ps e (by rw [hstep])] at herr
        simp at herr
      · by_cases hcc : p.chunk_id + 1 = p.image_chunk_count
        · by_cases hemp : (fresh_open RES p).partial_size + p.data.length = 0 ∨ b.capacity = 0
          · -- zero-byte completed frame: IndexError, excluded
            have hstep : image_chunk_step RES st p =
                ⟨write_accept (fresh_open RES p) p b, [], some PyErr.indexError⟩ :=
              hstep0.trans (accept_ok_empty _ p b h1f h2f hw hcc hemp)
            rw [run_cons_some RES st p ps PyErr.indexError (by rw [hstep])] at herr
            simp at herr
          · have hstep : image_chunk_step RES st p =
                ⟨reset_partial_state,
                 [completed_of (write_accept (fresh_open RES p) p b)], none⟩ :=
              hstep0.trans (accept_ok_complete _ p b h1f h2f hw hcc hemp)
            rw [run_cons_none RES st p ps (by rw [hstep])]
            simp only [hstep]
            constructor
            · intro _
              refine Or.inl (Or.inl ⟨hc0, Or.inl ?_⟩)
              omega
            · intro _
              simp
        · have hstep : image_chunk_step RES st p =
              ⟨write_accept (fresh_open RES p) p b, [], none⟩ :=
            hstep0.trans (accept_ok_incomplete _ p b h1f h2f hw hcc)
          rw [run_cons_none RES st p ps (by rw [hstep])] at herr ⊢
          simp only [hstep] at herr ⊢
          rw [List.nil_append]
          have hIH := IH (write_accept (fresh_open RES p) p b)
            (by intro _; simp [write_accept]) herr
          rw [exists_openframe_some _ p.image_id 0
            (by simp [write_accept, fresh_open, reset_partial_state])
            (by simp [write_accept, hc0]) _] at hIH
          refine hIH.trans ?_
          rw [hnocont, or_false, hasRun_cons]
          have hcount : p.image_chunk_count ≠ 1 := by omega
          constructor
          · rintro (h | h)
            · exact Or.inr h
            · exact Or.inl ⟨hc0, Or.inr h⟩
          · rintro (⟨_, h | h⟩ | h)
            · exact absurd h hcount
            · exact Or.inr h
            · exact Or.inl h
    · -- chunk index differs from 0
      by_cases hid : st.partial_image_id = none
      · have hstep : image_chunk_step RES st p = ⟨{ st with partial_invalid := true }, [], none⟩ :=
          step_closed_nonzero RES st p hid hc0
        rw [run_cons_none RES st p ps (by rw [hstep])] at herr ⊢
        simp only [hstep] at herr ⊢
        rw [List.nil_append]
        have hIH := IH { st with partial_invalid := true } (by simp [hid]) herr
        rw [exists_openframe_none _ (by simp [hid]) _, or_false] at hIH
        refine hIH.trans ?_
        rw [hasRun_cons, exists_openframe_none st hid, or_false]
        simp only [hc0, false_and, false_or]
      · rcases Option.ne_none_iff_exists'.1 hid with ⟨i0, hi⟩
        have h0 : 0 ≤ st.last_chunk_id := hinv (by simp [hi])
        obtain ⟨n0, hl⟩ : ∃ n0 : Nat, st.last_chunk_id = (n0 : Int) :=
          ⟨st.last_chunk_id.toNat, (Int.toNat_of_nonneg h0).symm⟩
        have hstep0 := step_open_nonzero RES st p i0 hi hc0
        by_cases hm : p.chunk_id = n0 + 1 ∧ p.image_id = i0
        · have h1o : (p.chunk_id : Int) = st.last_chunk_id + 1 := by
            rw [hl, hm.1]
            push_cast
            ring
          have h2o : some p.image_id = st.partial_image_id := by rw [hi, hm.2]
          rcases hw : slice_write st.partial_data st.partial_size p.data with e | b
          · have hstep : image_chunk_step RES st p = ⟨st, [], some e⟩ :=
              hstep0.trans (accept_match_err st p e h1o h2o hw)
            rw [run_cons_some RES st p ps e (by rw [hstep])] at herr
            simp at herr
          · by_cases hcc : p.chunk_id + 1 = p.image_chunk_count
            · by_cases hemp : st.partial_size + p.data.length = 0 ∨ b.capacity = 0
              · have hstep : image_chunk_step RES st p =
                    ⟨write_accept st p b, [], some PyErr.indexError⟩ :=
                  hstep0.trans (accept_ok_empty st p b h1o h2o hw hcc hemp)
                rw [run_cons_some RES st p ps PyErr.indexError (by rw [hstep])] at herr
                simp at herr
              · have hstep : image_chunk_step RES st p =
                    ⟨reset_partial_state, [completed_of (write_accept st p b)], none⟩ :=
                  hstep0.trans (accept_ok_complete st p b h1o h2o hw hcc hemp)
                rw [run_cons_none RES st p ps (by rw [hstep])]
                simp only [hstep]
                constructor
                · intro _
                  refine Or.inr ⟨i0, n0, ⟨hi, hl⟩, hm.2, hm.1, Or.inl ?_⟩
                  omega
                · intro _
                  simp
            · have hstep : image_chunk_step RES st p = ⟨write_accept st p b, [], none⟩ :=
                hstep0.trans (accept_ok_incomplete st p b h1o h2o hw hcc)
              rw [run_cons_none RES st p ps (by rw [hstep])] at herr ⊢
              simp only [hstep] at herr ⊢
              rw [List.nil_append]
              have hIH := IH (write_accept st p b)
                (by intro _; simp [write_accept]) herr
              rw [exists_openframe_some _ i0 (n0 + 1)
                (by simp [write_accept, hi]) (by simp [write_accept, hm.1]) _] at hIH
              refine hIH.trans ?_
              rw [hasRun_cons, exists_openframe_some st i0 n0 hi hl _, hasCont_cons]
              have hcnt2 : p.image_chunk_count ≠ n0 + 2 := by omega
              simp only [hm.1, hm.2, true_and, hcnt2, false_or]
              constructor
              · rintro (h | h)
                · exact Or.inl (Or.inr h)
                · exact Or.inr h
              · rintro ((⟨h, _⟩ | h) | h)
                · exact absurd h (by omega)
                · exact Or.inl h
                · exact Or.inr h
        · have hstep : image_chunk_step RES st p =
              ⟨{ reset_partial_state with partial_invalid := true }, [], none⟩ :=
            hstep0.trans (accept_open_mismatch st p i0 n0 hi hl hm)
          rw [run_cons_none RES st p ps (by rw [hstep])] at herr ⊢
          simp only [hstep] at herr ⊢
          rw [List.nil_append]
          have hIH := IH { reset_partial_state with partial_invalid := true }
            (by intro h; simp [reset_partial_state] at h) herr
          rw [exists_openframe_none _ (by simp [reset_partial_state]) _, or_false] at hIH
          refine hIH.trans ?_
          rw [hasRun_cons, exists_openframe_some st i0 n0 hi hl _, hasCont_cons]
          simp only [hc0, false_and, false_or]
          constructor
          · intro h
            exact Or.inl h
          · rintro (h | ⟨h1, h2, _⟩)
            · exact h
            · exact absurd ⟨h2, h1⟩ hm

theorem hasCont_iff_seg (i : Nat) :
    ∀ (ps : List ImageChunk) (j : Nat),
      hasCont i j ps ↔ ∃ seg post, ps = seg ++ post ∧ IsContSeg i j seg := by
  intro ps
  induction ps with
  | nil =>
    intro j
    constructor
    · intro h
      exact absurd h (by rw [hasCont_nil]; exact not_false)
    · rintro ⟨seg, post, heq, _, _, q, hq, _⟩
      obtain rfl : seg = [] := (List.append_eq_nil.mp heq.symm).1
      simp at hq
  | cons p t ih =>
    intro j
    constructor
    · rintro ⟨hid, hch, hdone | hcont⟩
      · refine ⟨[p], t, rfl, ⟨?_, ?_, ⟨p, by simp, by simpa using by omega⟩⟩⟩
        · intro x hx
          rw [List.mem_singleton.mp hx]
          exact hid
        · simp [List.range'_succ, hch]
      · obtain ⟨seg, post, heq, hall, hmap, q, hq, hqc⟩ := (ih (j + 1)).mp hcont
        cases seg with
        | nil => simp at hq
        | cons a r =>
          refine ⟨p :: a :: r, post, by simp [heq], ?_, ?_, ⟨q, ?_, ?_⟩⟩
          · intro x hx
            rcases List.mem_cons.mp hx with rfl | hx
            · exact hid
            · exact hall x hx
          · have hlen : (p :: a :: r).length = (a :: r).length + 1 := rfl
            rw [List.map_cons, hmap, hch, hlen, List.range'_succ]
          · rw [List.getLast?_cons_cons]
            exact hq
          · simp only [List.length_cons] at hqc ⊢
            omega
    · rintro ⟨seg, post, heq, hall, hmap, q, hq, hqc⟩
      cases seg with
      | nil => simp at hq
      | cons s0 srest =>
        rw [List.length_cons, List.range'_succ] at hmap
        simp only [List.map_cons, List.cons.injEq] at hmap
        obtain ⟨hch0, hmaprest⟩ := hmap
        rw [List.cons_append, List.cons.injEq] at heq
        obtain ⟨rfl, rfl⟩ := heq
        rw [hasCont_cons]
        refine ⟨hall p (List.mem_cons_self p srest), hch0, ?_⟩
        cases srest with
        | nil =>
          left
          simp only [List.getLast?_singleton, Option.some.injEq] at hq
          rw [← hq] at hqc
          simp only [List.length_singleton] at hqc
          omega
        | cons s1 srr =>
          right
          refine (ih (j + 1)).mpr ⟨s1 :: srr, post, rfl, ?_, ?_, ⟨q, ?_, ?_⟩⟩
          · intro x hx
            exact hall x (List.mem_cons_of_mem p hx)
          · exact hmaprest
          · rw [List.getLast?_cons_cons] at hq
            exact hq
          · simp only [List.length_cons] at hqc ⊢
            omega

theorem hasRun_iff_run :
    ∀ ps : List ImageChunk,
      hasRun ps ↔ ∃ i pre run post, ps = pre ++ run ++ post ∧ IsRun i run := by
  intro ps
  induction ps with
  | nil =>
    constructor
    · intro h
      exact absurd h (by rw [hasRun_nil]; exact not_false)
    · rintro ⟨i, pre, run, post, heq, _, _, q, hq, _⟩
      obtain ⟨h1, h2⟩ := List.append_eq_nil.mp (List.append_eq_nil.mp heq.symm).1
      subst h2
      simp at hq
  | cons p t ih =>
    constructor
    · rintro (⟨hc0, hdone | hcont⟩ | htail)
      · refine ⟨p.image_id, [], [p], t, rfl, ?_, ?_, ⟨p, by simp, by simpa using hdone⟩⟩
        · intro x hx
          rw [List.mem_singleton.mp hx]
        · simp only [List.map_cons, List.map_nil, hc0, List.length_singleton]
          decide
      · obtain ⟨seg, post, heq, hall, hmap, q, hq, hqc⟩ :=
          (hasCont_iff_seg p.image_id t 0).mp hcont
        cases seg with
        | nil => simp at hq
        | cons a r =>
          refine ⟨p.image_id, [], p :: a :: r, post, by simp [heq], ?_, ?_, ⟨q, ?_, ?_⟩⟩
          · intro x hx
            rcases List.mem_cons.mp hx with rfl | hx
            · rfl
            · exact hall x hx
          · have hlen : (p :: a :: r).length = (a :: r).length + 1 := rfl
            rw [List.map_cons, hmap, hc0, hlen, List.range_eq_range', List.range'_succ]
          · rw [List.getLast?_cons_cons]
            exact hq
          · simp only [List.length_cons] at hqc ⊢
            omega
      · obtain ⟨i, pre, run, post, heq, hrun⟩ := ih.mp htail
        exact ⟨i, p :: pre, run, post, by simp [heq], hrun⟩
    · rintro ⟨i, pre, run, post, heq, hrun⟩
      cases pre with
      | cons x pre2 =>
        rw [List.cons_append, List.cons_append, List.cons.injEq] at heq
        rw [hasRun_cons]
        exact Or.inr (ih.mpr ⟨i, pre2, run, post, heq.2, hrun⟩)
      | nil =>
        obtain ⟨hall, hmap, q, hq, hqc⟩ := hrun
        cases run with
        | nil => simp at hq
        | cons r0 rest =>
          rw [List.nil_append, List.cons_append, List.cons.injEq] at heq
          obtain ⟨rfl, rfl⟩ := heq
          have hlen : (p :: rest).length = rest.length + 1 := rfl
          rw [hlen, List.range_eq_range', List.range'_succ, List.map_cons,
            List.cons.injEq] at hmap
          obtain ⟨hch0, hmaprest⟩ := hmap
          rw [hasRun_cons]
          left
          refine ⟨hch0, ?_⟩
          have hpid : p.image_id = i := hall p (List.mem_cons_self p rest)
          cases rest with
          | nil =>
            left
            simp only [List.getLast?_singleton, Option.some.injEq] at hq
            rw [← hq] at hqc
            simpa using hqc
          | cons s1 srr =>
            right
            rw [hpid]
            refine (hasCont_iff_seg i (s1 :: srr ++ post) 0).mpr
              ⟨s1 :: srr, post, rfl, ?_, ?_, ⟨q, ?_, ?_⟩⟩
            · intro x hx
              exact hall x (List.mem_cons_of_mem p hx)
            · simpa using hmaprest
            · rw [List.getLast?_cons_cons] at hq
              exact hq
            · simp only [List.length_cons] at hqc ⊢
              omega

theorem accept_shape (st : PartialImageState) (p : ImageChunk) :
    (accept_chunk st p).images = [] ∨
      ((accept_chunk st p).state = reset_partial_state ∧
        ∃ c, (accept_chunk st p).images = [c] ∧ (accept_chunk st p).err = none) := by
  by_cases h : (p.chunk_id : Int) ≠ st.last_chunk_id + 1 ∨ some p.image_id ≠ st.partial_image_id
  · rw [accept_mismatch st p h]
    left
    rfl
  · push_neg at h
    rcases hw : slice_write st.partial_data st.partial_size p.data with e | b
    · rw [accept_match_err st p e h.1 h.2 hw]
      left
      rfl
    · by_cases hcc : p.chunk_id + 1 = p.image_chunk_count
      · by_cases hemp : st.partial_size + p.data.length = 0 ∨ b.capacity = 0
        · rw [accept_ok_empty st p b h.1 h.2 hw hcc hemp]
          left
          rfl
        · rw [accept_ok_complete st p b h.1 h.2 hw hcc hemp]
          right
          exact ⟨rfl, _, rfl, rfl⟩
      · rw [accept_ok_incomplete st p b h.1 h.2 hw hcc]
        left
        rfl

theorem image_chunk_step_shape (RES : Nat → Nat × Nat) (st : PartialImageState)
    (p : ImageChunk) :
    (image_chunk_step RES st p).images = [] ∨
      ((image_chunk_step RES st p).state = reset_partial_state ∧
        ∃ c, (image_chunk_step RES st p).images = [c] ∧
          (image_chunk_step RES st p).err = none) := by
  by_cases hc0 : p.chunk_id = 0
  · rw [step_chunk0 RES st p hc0]
    exact accept_shape _ _
  · by_cases hid : st.partial_image_id = none
    · rw [step_closed_nonzero RES st p hid hc0]
      left
      rfl
    · rcases Option.ne_none_iff_exists'.1 hid with ⟨i, hi⟩
      rw [step_open_nonzero RES st p i hi hc0]
      exact accept_shape _ _

/-- C2 (amended): over every packet sequence whose processing raises no
exception, a frame completion (an `EvtNewRawCameraImage` dispatch) occurs
if and only if a full, index-contiguous run of chunks `0..N-1` (`N` the
chunk count declared by the completing chunk) sharing a single image id is
observed, regardless of other interleaved or discarded image ids.  A chunk
is accepted into the open frame only if its index equals the last-accepted
index plus one and its image id equals the open frame's id: an in-bounds
matching chunk extends the frame; a matching final chunk of a nonempty
in-bounds frame completes it; a matching write past the
`width * height * 3` allocation raises `ValueError` and a zero-byte
completed frame raises `IndexError`, in both cases with no dispatch; any
other combination discards the open frame (a non-zero index invalidates
the state, an index-0 chunk restarts from a fresh frame).  Each packet
completes at most one frame, and a dispatch resets the state with no
exception, so one full run yields exactly one dispatch. -/
theorem C2_image_reassembly_completion :
    (∀ (RES : Nat → Nat × Nat) (ps : List ImageChunk),
        (image_chunk_run RES reset_partial_state ps).err = none →
        ((image_chunk_run RES reset_partial_state ps).images ≠ [] ↔
          ∃ i pre run post, ps = pre ++ run ++ post ∧ IsRun i run)) ∧
    (∀ (RES : Nat → Nat × Nat) (st : PartialImageState) (p : ImageChunk) (i j : Nat),
        OpenFrame st i j → p.chunk_id ≠ 0 → ¬(p.chunk_id = j + 1 ∧ p.image_id = i) →
        image_chunk_step RES st p =
          ⟨{ reset_partial_state with partial_invalid := true }, [], none⟩) ∧
    (∀ (RES : Nat → Nat × Nat) (st : PartialImageState) (p : ImageChunk) (i j : Nat),
        OpenFrame st i j → p.chunk_id = 0 →
        image_chunk_step RES st p = accept_chunk (fresh_open RES p) p) ∧
    (∀ (RES : Nat → Nat × Nat) (st : PartialImageState) (p : ImageChunk) (i j : Nat)
        (b : PartialBuffer),
        OpenFrame st i j → p.chunk_id = j + 1 → p.image_id = i →
        st.partial_data = some b → st.partial_size + p.data.length ≤ b.capacity →
        p.image_chunk_count ≠ j + 2 →
        image_chunk_step RES st p =
          ⟨write_accept st p { capacity := b.capacity, written := b.written ++ p.data },
           [], none⟩) ∧
    (∀ (RES : Nat → Nat × Nat) (st : PartialImageState) (p : ImageChunk) (i j : Nat)
        (b : PartialBuffer),
        OpenFrame st i j → p.chunk_id = j + 1 → p.image_id = i →
        st.partial_data = some b → st.partial_size + p.data.length ≤ b.capacity →
        0 < st.partial_size + p.data.length → p.image_chunk_count = j + 2 →
        image_chunk_step RES st p =
          ⟨reset_partial_state,
           [completed_of
             (write_accept st p { capacity := b.capacity, written := b.written ++ p.data })],
           none⟩) ∧
    (∀ (RES : Nat → Nat × Nat) (st : PartialImageState) (p : ImageChunk) (i j : Nat)
        (b : PartialBuffer),
        OpenFrame st i j → p.chunk_id = j + 1 → p.image_id = i →
        st.partial_data = some b → b.capacity < st.partial_size + p.data.length →
        p.data ≠ [] →
        image_chunk_step RES st p = ⟨st, [], some PyErr.valueError⟩) ∧
    (∀ (RES : Nat → Nat × Nat) (st : PartialImageState) (p : ImageChunk) (i j : Nat)
        (b : PartialBuffer),
        OpenFrame st i j → p.chunk_id = j + 1 → p.image_id = i →
        st.partial_data = some b → st.partial_size = 0 → p.data = [] →
        p.image_chunk_count = j + 2 →
        image_chunk_step RES st p =
          ⟨write_accept st p { capacity := b.capacity, written := b.written ++ p.data },
           [], some PyErr.indexError⟩) ∧
    (∀ (RES : Nat → Nat × Nat) (st : PartialImageState) (p : ImageChunk),
        ((image_chunk_step RES st p).images).length ≤ 1) ∧
    (∀ (RES : Nat → Nat × Nat) (st : PartialImageState) (p : ImageChunk),
        (image_chunk_step RES st p).images ≠ [] →
        (image_chunk_step RES st p).state = reset_partial_state ∧
          (image_chunk_step RES st p).err = none) := by
  refine ⟨?_, ?_, ?_, ?_, ?_, ?_, ?_, ?_, ?_⟩
  · intro RES ps herr
    have h := completes_run_iff RES ps reset_partial_state
      (by intro h2; simp [reset_partial_state] at h2) herr
    rw [exists_openframe_none _ (by simp [reset_partial_state]) _, or_false] at h
    exact h.trans (hasRun_iff_run ps)
  · rintro RES st p i j ⟨hi, hl⟩ hc0 hm
    rw [step_open_nonzero RES st p i hi hc0]
    exact accept_open_mismatch st p i j hi hl hm
  · rintro RES st p i j ⟨hi, hl⟩ hc0
    exact step_chunk0 RES st p hc0
  · rintro RES st p i j b ⟨hi, hl⟩ hch him hdata hfit hcnt
    have h1 : (p.chunk_id : Int) = st.last_chunk_id + 1 := by
      rw [hl, hch]
      push_cast
      ring
    have h2 : some p.image_id = st.partial_image_id := by rw [hi, him]
    have hw : slice_write st.partial_data st.partial_size p.data =
        Except.ok { capacity := b.capacity, written := b.written ++ p.data } := by
      rw [hdata]
      simp only [slice_write]
      rw [if_pos (Or.inl hfit)]
    rw [step_open_nonzero RES st p i hi (by omega)]
    exact accept_ok_incomplete st p _ h1 h2 hw (by omega)
  · rintro RES st p i j b ⟨hi, hl⟩ hch him hdata hfit hpos hcnt
    have h1 : (p.chunk_id : Int) = st.last_chunk_id + 1 := by
      rw [hl, hch]
      push_cast
      ring
    have h2 : some p.image_id = st.partial_image_id := by rw [hi, him]
    have hw : slice_write st.partial_data st.partial_size p.data =
        Except.ok { capacity := b.capacity, written := b.written ++ p.data } := by
      rw [hdata]
      simp only [slice_write]
      rw [if_pos (Or.inl hfit)]
    rw [step_open_nonzero RES st p i hi (by omega)]
    refine accept_ok_complete st p _ h1 h2 hw (by omega) ?_
    push_neg
    constructor
    · omega
    · show b.capacity ≠ 0
      omega
  · rintro RES st p i j b ⟨hi, hl⟩ hch him hdata hover hne
    have h1 : (p.chunk_id : Int) = st.last_chunk_id + 1 := by
      rw [hl, hch]
      push_cast
      ring
    have h2 : some p.image_id = st.partial_image_id := by rw [hi, him]
    have hlen : p.data.length ≠ 0 := by
      intro h
      exact hne (List.length_eq_zero.mp h)
    have hw : slice_write st.partial_data st.partial_size p.data =
        Except.error PyErr.valueError := by
      rw [hdata]
      simp only [slice_write]
      rw [if_neg]
      push_neg
      exact ⟨by omega, hlen⟩
    rw [step_open_nonzero RES st p i hi (by omega)]
    exact accept_match_err st p _ h1 h2 hw
  · rintro RES st p i j b ⟨hi, hl⟩ hch him hdata hsize hdat hcnt
    have h1 : (p.chunk_id : Int) = st.last_chunk_id + 1 := by
      rw [hl, hch]
      push_cast
      ring
    have h2 : some p.image_id = st.partial_image_id := by rw [hi, him]
    have hw : slice_write st.partial_data st.partial_size p.data =
        Except.ok { capacity := b.capacity, written := b.written ++ p.data } := by
      rw [hdata]
      simp only [slice_write]
      rw [if_pos (Or.inr (by simp [hdat]))]
    rw [step_open_nonzero RES st p i hi (by omega)]
    exact accept_ok_empty st p _ h1 h2 hw (by omega) (Or.inl (by simp [hsize, hdat]))
  · intro RES st p
    rcases image_chunk_step_shape RES st p with h | ⟨_, c, h, _⟩ <;> simp [h]
  · intro RES st p
    rcases image_chunk_step_shape RES st p with h | ⟨h1, _, _, h3⟩
    · intro hne
      exact absurd h hne
    · intro _
      exact ⟨h1, h3⟩

/-- C2 (counterexample): the single chunk (image id 7, index 0, declared
count 1, empty payload) is itself a full index-contiguous run 0..N-1, yet
the program dispatches nothing for it — `_process_completed_image` raises
`IndexError` on the zero-byte frame before the dispatch — so completion is
not equivalent to the presence of a full run over arbitrary sequences. -/
theorem C2_counterexample :
    (∃ i pre run post,
        ([ImageChunk.mk 11 7 0 0 0 1 []] : List ImageChunk) = pre ++ run ++ post ∧
        IsRun i run) ∧
    (image_chunk_run RES0 reset_partial_state [ImageChunk.mk 11 7 0 0 0 1 []]).images = [] ∧
    (image_chunk_run RES0 reset_partial_state [ImageChunk.mk 11 7 0 0 0 1 []]).err =
      some PyErr.indexError := by
  refine ⟨⟨7, [], [ImageChunk.mk 11 7 0 0 0 1 []], [], rfl, ?_, by decide,
    ⟨ImageChunk.mk 11 7 0 0 0 1 [], rfl, rfl⟩⟩, by decide, by decide⟩
  intro q hq
  rw [List.mem_singleton.mp hq]

/-- C10: while a frame is open, an index-0 chunk (of any image id, the open
one included) discards the open frame without dispatching any
`EvtNewRawCameraImage` for the discarded data, and begins a new frame from
that chunk with a re-initialized state: the packet's timestamp, image id,
encoding and resolution, a fresh buffer of capacity `width * height * 3`,
and accumulated size 0; any completion the packet itself triggers carries
only the new chunk's data. -/
theorem C10_chunk_zero_restarts_frame :
    ∀ (RES : Nat → Nat × Nat) (st : PartialImageState) (p : ImageChunk) (i : Nat),
      st.partial_image_id = some i → p.chunk_id = 0 →
      image_chunk_step RES st p = accept_chunk (fresh_open RES p) p ∧
      (fresh_open RES p).partial_image_timestamp = some p.frame_timestamp ∧
      (fresh_open RES p).partial_image_id = some p.image_id ∧
      (fresh_open RES p).partial_image_encoding = some p.image_encoding ∧
      (fresh_open RES p).partial_image_resolution = some p.image_resolution ∧
      (fresh_open RES p).partial_data =
        some { capacity := (RES p.image_resolution).1 * (RES p.image_resolution).2 * 3,
               written := [] } ∧
      (fresh_open RES p).partial_size = 0 ∧
      (fresh_open RES p).partial_invalid = false ∧
      ∀ c ∈ (image_chunk_step RES st p).images,
        c.data = p.data ∧ c.timestamp = some p.frame_timestamp := by
  intro RES st p i hi hc0
  refine ⟨step_chunk0 RES st p hc0, rfl, rfl, rfl, rfl, rfl, rfl, rfl, ?_⟩
  rw [step_chunk0 RES st p hc0]
  have h1f : (p.chunk_id : Int) = (fresh_open RES p).last_chunk_id + 1 := by
    simp [fresh_open, reset_partial_state, hc0]
  have h2f : some p.image_id = (fresh_open RES p).partial_image_id := rfl
  rcases hw : slice_write (fresh_open RES p).partial_data
      (fresh_open RES p).partial_size p.data with e | b
  · rw [accept_match_err _ p e h1f h2f hw]
    intro c hc
    simp at hc
  · have hbw : b.written = p.data := by
      have hfd : (fresh_open RES p).partial_data =
          some { capacity := (RES p.image_resolution).1 * (RES p.image_resolution).2 * 3,
                 written := [] } := rfl
      rw [hfd] at hw
      simp only [slice_write] at hw
      split at hw
      · injection hw with h
        rw [← h]
        simp
      · simp at hw
    by_cases hcc : p.chunk_id + 1 = p.image_chunk_count
    · by_cases hemp : (fresh_open RES p).partial_size + p.data.length = 0 ∨ b.capacity = 0
      · rw [accept_ok_empty _ p b h1f h2f hw hcc hemp]
        intro c hc
        simp at hc
      · rw [accept_ok_complete _ p b h1f h2f hw hcc hemp]
        intro c hc
        rw [List.mem_singleton.mp hc]
        constructor
        · simp [completed_of, write_accept, buf_written, hbw]
        · simp [completed_of, write_accept, fresh_open, reset_partial_state]
    · rw [accept_ok_incomplete _ p b h1f h2f hw hcc]
      intro c hc
      simp at hc

theorem C2_image_reassembly_completion_witness :
    (∃ i pre run post,
        ([ImageChunk.mk 11 7 0 0 0 3 [1], ImageChunk.mk 11 7 1 0 0 3 [2],
          ImageChunk.mk 11 7 2 0 0 3 [3]] : List ImageChunk) = pre ++ run ++ post ∧
        IsRun i run) ∧
    image_chunk_step RES0 open_state_7 (ImageChunk.mk 12 8 1 0 0 3 [9]) =
      ⟨{ reset_partial_state with partial_invalid := true }, [], none⟩ :=
  ⟨(C2_image_reassembly_completion.1 RES0 _ (by decide)).mp (by decide),
   C2_image_reassembly_completion.2.1 RES0 open_state_7 (ImageChunk.mk 12 8 1 0 0 3 [9])
     7 0 ⟨rfl, rfl⟩ (by decide) (by decide)⟩

theorem C10_chunk_zero_restarts_frame_witness :
    image_chunk_step RES0 open_state_7 (ImageChunk.mk 13 9 0 0 0 2 [5]) =
      accept_chunk (fresh_open RES0 (ImageChunk.mk 13 9 0 0 0 2 [5]))
        (ImageChunk.mk 13 9 0 0 0 2 [5]) ∧
    (fresh_open RES0 (ImageChunk.mk 13 9 0 0 0 2 [5])).partial_size = 0 ∧
    (fresh_open RES0 (ImageChunk.mk 13 9 0 0 0 2 [5])).partial_image_id = some 9 :=
  have h := C10_chunk_zero_restarts_frame RES0 open_state_7
    (ImageChunk.mk 13 9 0 0 0 2 [5]) 7 rfl rfl
  ⟨h.1, h.2.2.2.2.2.2.1, h.2.2.1⟩

/-! ## Telemetry tracker (`Client._on_robot_state`) -/

theorem mask_ne_iff (a b k : Nat) :
    (a &&& 2 ^ k ≠ b &&& 2 ^ k) ↔ a.testBit k ≠ b.testBit k := by
  rw [Nat.and_two_pow, Nat.and_two_pow]
  have hp : 0 < 2 ^ k := Nat.two_pow_pos k
  cases ha : a.testBit k <;> cases hb : b.testBit k <;> (simp; try omega)

theorem mask_payload (b k : Nat) : (b &&& 2 ^ k != 0) = b.testBit k := by
  rw [Nat.and_two_pow]
  have hp : 0 < 2 ^ k := Nat.two_pow_pos k
  cases hb : b.testBit k
  · simp
  · simp only [Bool.toNat_true, one_mul]
    rw [bne_iff_ne]
    · omega

theorem filterMap_ite_eq_map_filter {α β : Type} (l : List α) (q : α → Bool) (g : α → β) :
    l.filterMap (fun x => if q x then some (g x) else none) = (l.filter q).map g := by
  induction l with
  | nil => simp
  | cons a t ih => by_cases h : q a <;> simp [h, ih]

/-- C3: on every robot-state packet the client dispatches
`EvtRobotStateUpdated` exactly once, unconditionally, and then exactly one
flag-change event, carrying the new boolean value, for each entry of the
`STATUS_EVTS` table whose bit differs between the previous and the new
status bit-field — none for unchanged bits — in the table's declaration
order; the motion fields and the stored status are overwritten from the
packet. -/
theorem C3_robot_state_flag_events :
    ∀ (st : ClientState) (pkt : RobotState),
      (on_robot_state st pkt).2 =
        ClientAction.dispatch Evt.EvtRobotStateUpdated ::
          (STATUS_EVTS.filter (fun fe =>
              st.robot_status.testBit (flag_bit fe.1) !=
                pkt.status.testBit (flag_bit fe.1))).map
            (fun fe => ClientAction.dispatch
              (Evt.flagChange fe.2 (pkt.status.testBit (flag_bit fe.1)))) ∧
      ((on_robot_state st pkt).2).count
          (ClientAction.dispatch Evt.EvtRobotStateUpdated) = 1 ∧
      (on_robot_state st pkt).1.robot_status = pkt.status ∧
      (on_robot_state st pkt).1.pose_angle = pkt.pose_angle_rad ∧
      (on_robot_state st pkt).1.battery_voltage = pkt.battery_voltage := by
  intro st pkt
  have hpoint : ∀ fe ∈ STATUS_EVTS,
      (if st.robot_status &&& flag_mask fe.1 ≠ pkt.status &&& flag_mask fe.1 then
        some (ClientAction.dispatch
          (Evt.flagChange fe.2 (pkt.status &&& flag_mask fe.1 != 0)))
      else none) =
      (if (st.robot_status.testBit (flag_bit fe.1) !=
            pkt.status.testBit (flag_bit fe.1)) = true then
        some (ClientAction.dispatch
          (Evt.flagChange fe.2 (pkt.status.testBit (flag_bit fe.1))))
      else none) := by
    intro fe _
    simp only [flag_mask]
    rw [mask_payload pkt.status (flag_bit fe.1)]
    by_cases h : st.robot_status &&& 2 ^ flag_bit fe.1 ≠ pkt.status &&& 2 ^ flag_bit fe.1
    · rw [if_pos h, if_pos]
      rw [bne_iff_ne]
      exact (mask_ne_iff _ _ _).mp h
    · rw [if_neg h, if_neg]
      intro hb
      exact h ((mask_ne_iff _ _ _).mpr (bne_iff_ne.mp hb))
  have hact : (on_robot_state st pkt).2 =
      ClientAction.dispatch Evt.EvtRobotStateUpdated ::
        (STATUS_EVTS.filter (fun fe =>
            st.robot_status.testBit (flag_bit fe.1) !=
              pkt.status.testBit (flag_bit fe.1))).map
          (fun fe => ClientAction.dispatch
            (Evt.flagChange fe.2 (pkt.status.testBit (flag_bit fe.1)))) := by
    show ClientAction.dispatch Evt.EvtRobotStateUpdated ::
        STATUS_EVTS.filterMap _ = _
    rw [List.filterMap_congr hpoint,
      filterMap_ite_eq_map_filter STATUS_EVTS
        (fun fe => st.robot_status.testBit (flag_bit fe.1) !=
          pkt.status.testBit (flag_bit fe.1))
        (fun fe => ClientAction.dispatch
          (Evt.flagChange fe.2 (pkt.status.testBit (flag_bit fe.1))))]
  refine ⟨hact, ?_, rfl, rfl, rfl⟩
  rw [hact, List.count_cons_self, List.count_eq_zero.mpr]
  · intro hmem
    rcases List.mem_map.mp hmem with ⟨fe, _, heq⟩
    exact ClientAction.noConfusion heq (fun h2 => Evt.noConfusion h2)

/-- C6: the claim says every flag of the Status Flag Table maps to a
distinct event kind; in the code `STATUS_EVTS` maps both `IS_ANIMATING`
(line 111) and `IS_ANIMATING_IDLE` (line 116) to `EvtRobotAnimatingChange`,
while the class `EvtRobotAnimatingIdleChange` is declared and never used —
the two distinct flags share one event kind. -/
theorem C6_animating_idle_shares_event_kind :
    (RobotStatusFlag.IS_ANIMATING, FlagEvt.EvtRobotAnimatingChange) ∈ STATUS_EVTS ∧
    (RobotStatusFlag.IS_ANIMATING_IDLE, FlagEvt.EvtRobotAnimatingChange) ∈ STATUS_EVTS ∧
    RobotStatusFlag.IS_ANIMATING ≠ RobotStatusFlag.IS_ANIMATING_IDLE ∧
    ¬(∀ fe1 ∈ STATUS_EVTS, ∀ fe2 ∈ STATUS_EVTS,
        fe1.1 ≠ fe2.1 → fe1.2 ≠ fe2.2) := by
  refine ⟨by decide, by decide, by decide, ?_⟩
  intro h
  exact h (RobotStatusFlag.IS_ANIMATING, FlagEvt.EvtRobotAnimatingChange) (by decide)
    (RobotStatusFlag.IS_ANIMATING_IDLE, FlagEvt.EvtRobotAnimatingChange) (by decide)
    (by decide) rfl

/-! ## Object presence tracker (`Client._on_object_available`) -/

theorem lookup_append_single (l : List (Nat × ObjectRec)) (f : Nat) (o : ObjectRec)
    (h : l.lookup f = none) : (l ++ [(f, o)]).lookup f = some o := by
  induction l with
  | nil => simp [List.lookup]
  | cons a t ih =>
    obtain ⟨k, v⟩ := a
    rw [List.cons_append]
    simp only [List.lookup] at h ⊢
    by_cases hk : f == k
    · rw [hk] at h
      simp at h
    · simp only [Bool.not_eq_true] at hk
      rw [hk] at h ⊢
      exact ih h

/-- C9: delivering an object-available packet whose factory id is already a
key of `available_objects` leaves the client state unchanged (the record is
neither duplicated nor overwritten); processing is idempotent in the
factory id, and the record for a factory id is inserted exactly once, by its
first discovery. -/
theorem C9_object_available_idempotent :
    (∀ (st : ClientState) (f t : Nat),
        (st.available_objects.lookup f).isSome →
        on_object_available st f t = st) ∧
    (∀ (st : ClientState) (f t t2 : Nat),
        on_object_available (on_object_available st f t) f t2 =
          on_object_available st f t) ∧
    (∀ (st : ClientState) (f t : Nat),
        st.available_objects.lookup f = none →
        (on_object_available st f t).available_objects =
          st.available_objects ++ [(f, { factory_id := f, object_type := t })]) := by
  refine ⟨?_, ?_, ?_⟩
  · intro st f t hsome
    rw [on_object_available, if_neg]
    intro hnone
    rw [hnone] at hsome
    simp at hsome
  · intro st f t t2
    by_cases h : st.available_objects.lookup f = none
    · have h1 : on_object_available st f t =
          { st with available_objects :=
              st.available_objects ++ [(f, { factory_id := f, object_type := t })] } := by
        rw [on_object_available, if_pos h]
      rw [h1, on_object_available, if_neg]
      show ¬(st.available_objects ++ [(f, _)]).lookup f = none
      rw [lookup_append_single st.available_objects f _ h]
      exact Option.some_ne_none _
    · have h1 : on_object_available st f t = st := by
        rw [on_object_available, if_neg h]
      rw [h1, on_object_available, if_neg h]
  · intro st f t hnone
    rw [on_object_available, if_pos hnone]

theorem C9_object_available_idempotent_witness :
    on_object_available
        { init_client_state with
          available_objects := [(5, { factory_id := 5, object_type := 2 })] }
        5 3 =
      { init_client_state with
        available_objects := [(5, { factory_id := 5, object_type := 2 })] } :=
  C9_object_available_idempotent.1
    { init_client_state with
      available_objects := [(5, { factory_id := 5, object_type := 2 })] }
    5 3 (by decide)

/-! ## Handshake controller -/

/-- C7: upon successfully parsing a firmware-signature packet, the client
sends the `Enable` command exactly twice in immediate succession — its
action list is exactly the two `Enable` sends, with nothing between or
around them — and stores the parsed signature. -/
theorem C7_enable_sent_twice :
    ∀ (st : ClientState) (sig : List (String × Int)) (v : Int),
      sig.lookup "version" = some v →
      on_firmware_signature st (Except.ok sig) =
        { state := { st with robot_fw_sig := some sig }
          actions := [ClientAction.send Cmd.Enable, ClientAction.send Cmd.Enable]
          err := none } := by
  intro st sig v hlk
  rw [on_firmware_signature]
  simp [hlk, enable_robot_actions]

theorem C7_enable_sent_twice_witness :
    on_firmware_signature init_client_state (Except.ok [("version", 1)]) =
      { state := { init_client_state with robot_fw_sig := some [("version", 1)] }
        actions := [ClientAction.send Cmd.Enable, ClientAction.send Cmd.Enable]
        err := none } :=
  C7_enable_sent_twice init_client_state [("version", 1)] 1 rfl

/-- C8 (counterexample): at a firmware-signature packet whose payload fails
to parse, the escaping error is the json decode error, not a
`MalformedFirmwareSignature` — the claim's error kind is wrong, though the
enable step is indeed not triggered. -/
theorem C8_counterexample :
    (on_firmware_signature init_client_state (Except.error JsonErr.decodeError)).err =
        some PyErr.jsonDecodeError ∧
    some PyErr.jsonDecodeError ≠ some PyErr.MalformedFirmwareSignature ∧
    (on_firmware_signature init_client_state (Except.error JsonErr.decodeError)).actions =
      [] := by
  refine ⟨rfl, ?_, rfl⟩
  intro h
  exact PyErr.noConfusion (Option.some.inj h)

/-- C8 (amended): if parsing of the firmware-signature payload fails, the
raw json decode error escapes the handler unhandled (no
`MalformedFirmwareSignature` is signalled), the stored signature is left
untouched, and the enable step is not triggered for that packet — the
session does not proceed past the identity handshake. -/
theorem C8_parse_failure_no_enable :
    ∀ (st : ClientState) (e : JsonErr),
      on_firmware_signature st (Except.error e) =
        { state := st, actions := [], err := some PyErr.jsonDecodeError } ∧
      some PyErr.jsonDecodeError ≠ some PyErr.MalformedFirmwareSignature := by
  intro st e
  refine ⟨rfl, ?_⟩
  intro h
  exact PyErr.noConfusion (Option.some.inj h)

/-- C1 (counterexample): with a firmware-signature packet reporting version
1 (≠ `FIRMWARE_VERSION`) followed by a body-info packet, the `Enable`
command IS sent to the Connection — twice, upon the firmware-signature
packet, before the version is ever compared — refuting "no Enable command
is ever sent during the handshake". -/
theorem C1_counterexample :
    ClientAction.send Cmd.Enable ∈
      (run_client RES0 init_client_state
        [Pkt.FirmwareSignature (Except.ok sig_v1), Pkt.BodyInfo 1 2 3]).actions := by
  decide

/-- C1 (amended): if the firmware-signature packet reports a version not
equal to `FIRMWARE_VERSION`, the `Enable` command is nevertheless sent,
twice, upon receipt of the firmware-signature packet (the comparison only
happens at body-info); no initialization command is sent, `EvtRobotReady` is
never dispatched, and `EvtRobotFound` is still dispatched exactly once, upon
receipt of the body-info packet. -/
theorem C1_version_mismatch_handshake :
    ∀ (RES : Nat → Nat × Nat) (snh : Nat) (sig : List (String × Int)) (v : Int)
      (sn hw color : Nat),
      sig.lookup "version" = some v → v ≠ FIRMWARE_VERSION →
      (run_client RES init_client_state
          [Pkt.HardwareInfo snh, Pkt.FirmwareSignature (Except.ok sig),
           Pkt.BodyInfo sn hw color]).actions =
        [ClientAction.send Cmd.Enable, ClientAction.send Cmd.Enable,
         ClientAction.dispatch Evt.EvtRobotFound] ∧
      (run_client RES init_client_state
          [Pkt.HardwareInfo snh, Pkt.FirmwareSignature (Except.ok sig),
           Pkt.BodyInfo sn hw color]).err = none ∧
      ((run_client RES init_client_state
          [Pkt.HardwareInfo snh, Pkt.FirmwareSignature (Except.ok sig),
           Pkt.BodyInfo sn hw color]).actions).count
          (ClientAction.dispatch Evt.EvtRobotFound) = 1 ∧
      ClientAction.dispatch Evt.EvtRobotReady ∉
        (run_client RES init_client_state
          [Pkt.HardwareInfo snh, Pkt.FirmwareSignature (Except.ok sig),
           Pkt.BodyInfo sn hw color]).actions := by
  intro RES snh sig v sn hw color hlk hv
  have hact : (run_client RES init_client_state
      [Pkt.HardwareInfo snh, Pkt.FirmwareSignature (Except.ok sig),
       Pkt.BodyInfo sn hw color]).actions =
        [ClientAction.send Cmd.Enable, ClientAction.send Cmd.Enable,
         ClientAction.dispatch Evt.EvtRobotFound] ∧
      (run_client RES init_client_state
        [Pkt.HardwareInfo snh, Pkt.FirmwareSignature (Except.ok sig),
         Pkt.BodyInfo sn hw color]).err = none := by
    rw [run_client]
    simp only [process_packet]
    rw [run_client]
    simp only [process_packet, on_firmware_signature, hlk]
    rw [run_client]
    simp only [process_packet, on_body_info, hlk, enable_robot_actions]
    simp [run_client, hv]
  refine ⟨hact.1, hact.2, ?_, ?_⟩
  · rw [hact.1]
    decide
  · rw [hact.1]
    decide

theorem C1_version_mismatch_handshake_witness :
    (run_client RES0 init_client_state
        [Pkt.HardwareInfo 10, Pkt.FirmwareSignature (Except.ok sig_v1),
         Pkt.BodyInfo 1 2 3]).actions =
      [ClientAction.send Cmd.Enable, ClientAction.send Cmd.Enable,
       ClientAction.dispatch Evt.EvtRobotFound] :=
  (C1_version_mismatch_handshake RES0 10 sig_v1 1 1 2 3 rfl (by decide)).1

/-- C5 (counterexample): in the supported-version case, `_on_body_info`
dispatches `EvtRobotFound` last — after `_initialize_robot()` has already
sent every initialization command and dispatched `EvtRobotReady` — so
`EvtRobotReady` strictly precedes `EvtRobotFound`, refuting "EvtRobotFound
is dispatched before ... any initialization step ... before
EvtRobotReady". -/
theorem C5_counterexample :
    ClientAction.dispatch Evt.EvtRobotReady ∈ (on_body_info fw_state_ok 1 2 3).actions ∧
    ClientAction.dispatch Evt.EvtRobotFound ∈ (on_body_info fw_state_ok 1 2 3).actions ∧
    ((on_body_info fw_state_ok 1 2 3).actions).indexOf
        (ClientAction.dispatch Evt.EvtRobotReady) <
      ((on_body_info fw_state_ok 1 2 3).actions).indexOf
        (ClientAction.dispatch Evt.EvtRobotFound) ∧
    ((on_body_info fw_state_ok 1 2 3).actions).head? =
      some (ClientAction.send Cmd.EnableBodyACC) := by
  decide

/-- C5 (amended): a body-info packet sets the serial number, hardware
version and body color, then performs the firmware-version comparison and —
in the supported case — the whole initialization, and dispatches
`EvtRobotFound` last, in every case exactly once; in the supported case
`EvtRobotReady` is dispatched immediately before `EvtRobotFound`, i.e.
after Found's claim order reversed. -/
theorem C5_body_info_dispatch_order :
    ∀ (st : ClientState) (sig : List (String × Int)) (v : Int) (sn hw color : Nat),
      st.robot_fw_sig = some sig → sig.lookup "version" = some v →
      on_body_info st sn hw color =
        { state :=
            { st with
              serial_number := some sn
              body_hw_version := some hw
              body_color := some color }
          actions := if v = FIRMWARE_VERSION then
              init_robot_actions ++ [ClientAction.dispatch Evt.EvtRobotFound]
            else [ClientAction.dispatch Evt.EvtRobotFound]
          err := none } ∧
      (v = FIRMWARE_VERSION →
        (on_body_info st sn hw color).actions =
          [ClientAction.send Cmd.EnableBodyACC,
           ClientAction.send Cmd.EnableAnimationState] ++
            (List.replicate 7 [ClientAction.send Cmd.NextFrame,
              ClientAction.send (Cmd.DisplayImage [63, 63])]).flatten ++
            [ClientAction.dispatch Evt.EvtRobotReady,
             ClientAction.dispatch Evt.EvtRobotFound]) := by
  intro st sig v sn hw color hfw hlk
  have h1 : on_body_info st sn hw color =
      { state :=
          { st with
            serial_number := some sn
            body_hw_version := some hw
            body_color := some color }
        actions := if v = FIRMWARE_VERSION then
            init_robot_actions ++ [ClientAction.dispatch Evt.EvtRobotFound]
          else [ClientAction.dispatch Evt.EvtRobotFound]
        err := none } := by
    simp only [on_body_info, hfw, hlk]
    by_cases hveq : v = FIRMWARE_VERSION
    · rw [if_pos hveq, if_pos hveq]
    · rw [if_neg hveq, if_neg hveq]
  refine ⟨h1, ?_⟩
  intro hveq
  rw [h1]
  simp only [hveq, if_pos, init_robot_actions, List.append_assoc]
  simp

theorem C5_body_info_dispatch_order_witness :
    (on_body_info fw_state_ok 4 5 6).actions =
      [ClientAction.send Cmd.EnableBodyACC,
       ClientAction.send Cmd.EnableAnimationState] ++
        (List.replicate 7 [ClientAction.send Cmd.NextFrame,
          ClientAction.send (Cmd.DisplayImage [63, 63])]).flatten ++
        [ClientAction.dispatch Evt.EvtRobotReady,
         ClientAction.dispatch Evt.EvtRobotFound] :=
  (C5_body_info_dispatch_order fw_state_ok [("version", 2381)] 2381 4 5 6 rfl rfl).2 rfl

theorem wait_subs_found (w : WaitWorld) :
    ((WaitTarget.found, true) ∈ (wait_for_robot w).1) ↔
      truthy_sig w.fw_sig_at_entry = false := by
  rw [wait_for_robot]
  by_cases hg : truthy_sig w.fw_sig_at_entry = false ∧ w.found_fires = false
  · rw [if_pos hg]
    simp [hg.1]
  · rw [if_neg hg]
    rcases hx : w.fw_sig_at_check with _ | sig
    · by_cases ht : truthy_sig w.fw_sig_at_entry <;> simp [ht]
    · rcases hy : sig.lookup "version" with _ | v
      · by_cases ht : truthy_sig w.fw_sig_at_entry <;> simp [ht, hy]
      · by_cases hv : v = FIRMWARE_VERSION
        · by_cases hs : truthy_serial w.serial_at_check
          · by_cases ht : truthy_sig w.fw_sig_at_entry <;> simp [ht, hy, hv, hs]
          · by_cases hr : w.ready_fires <;> by_cases ht : truthy_sig w.fw_sig_at_entry <;>
              simp [ht, hy, hv, hs, hr]
        · by_cases ht : truthy_sig w.fw_sig_at_entry <;> simp [ht, hy, hv]

/-- C4: `wait_for_robot` performs three sequential checks.  (1) With no
firmware signature observed, it registers a one-shot `EvtRobotFound` waiter
and, if that wait times out, raises `ConnectionTimeout` — whatever the
version or the later fields hold, so the second check is never reached.
(2) Past the first check, a version different from `FIRMWARE_VERSION`
raises `UnsupportedFirmwareVersion` immediately, with no `EvtRobotReady`
subscription (no further waiting).  (3) Otherwise, with no serial number
set, it registers a one-shot `EvtRobotReady` waiter and raises
`ConnectionTimeout` on its timeout.  The `EvtRobotFound` waiter is
registered exactly when no signature was observed at entry, and the
timeout-kind error is distinct from the unsupported-version-kind error. -/
theorem C4_wait_for_robot_sequential :
    (∀ w : WaitWorld, truthy_sig w.fw_sig_at_entry = false → w.found_fires = false →
        wait_for_robot w = ([(WaitTarget.found, true)], some WaitErr.ConnectionTimeout)) ∧
    (∀ (w : WaitWorld) (sig : List (String × Int)) (v : Int),
        (truthy_sig w.fw_sig_at_entry = true ∨ w.found_fires = true) →
        w.fw_sig_at_check = some sig → sig.lookup "version" = some v →
        v ≠ FIRMWARE_VERSION →
        (wait_for_robot w).2 = some WaitErr.UnsupportedFirmwareVersion ∧
          (WaitTarget.ready, true) ∉ (wait_for_robot w).1) ∧
    (∀ (w : WaitWorld) (sig : List (String × Int)),
        (truthy_sig w.fw_sig_at_entry = true ∨ w.found_fires = true) →
        w.fw_sig_at_check = some sig →
        sig.lookup "version" = some FIRMWARE_VERSION →
        truthy_serial w.serial_at_check = false → w.ready_fires = false →
        (wait_for_robot w).2 = some WaitErr.ConnectionTimeout ∧
          (WaitTarget.ready, true) ∈ (wait_for_robot w).1) ∧
    (∀ w : WaitWorld,
        ((WaitTarget.found, true) ∈ (wait_for_robot w).1) ↔
          truthy_sig w.fw_sig_at_entry = false) ∧
    WaitErr.ConnectionTimeout ≠ WaitErr.UnsupportedFirmwareVersion := by
  refine ⟨?_, ?_, ?_, wait_subs_found, by decide⟩
  · intro w h1 h2
    rw [wait_for_robot, if_pos ⟨h1, h2⟩]
    rw [if_neg]
    simp [h1]
  · intro w sig v hpass hchk hlk hv
    have hg : ¬(truthy_sig w.fw_sig_at_entry = false ∧ w.found_fires = false) := by
      rcases hpass with h | h <;> simp [h]
    rw [wait_for_robot, if_neg hg]
    rcases hpass with h | h <;> simp [hchk, hlk, hv, h]
  · intro w sig hpass hchk hlk hser hready
    have hg : ¬(truthy_sig w.fw_sig_at_entry = false ∧ w.found_fires = false) := by
      rcases hpass with h | h <;> simp [h]
    rw [wait_for_robot, if_neg hg]
    simp [hchk, hlk, hser, hready]

theorem C4_wait_for_robot_sequential_witness :
    wait_for_robot
        { fw_sig_at_entry := none, found_fires := false, fw_sig_at_check := none,
          serial_at_check := none, ready_fires := false } =
      ([(WaitTarget.found, true)], some WaitErr.ConnectionTimeout) ∧
    (wait_for_robot
        { fw_sig_at_entry := some [("version", 1)], found_fires := false,
          fw_sig_at_check := some [("version", 1)], serial_at_check := none,
          ready_fires := true }).2 = some WaitErr.UnsupportedFirmwareVersion :=
  ⟨C4_wait_for_robot_sequential.1 _ rfl rfl,
   (C4_wait_for_robot_sequential.2.1 _ [("version", 1)] 1 (Or.inl (by decide)) rfl rfl
     (by decide)).1⟩
